import Mathlib

/-!
Verification of the sweet-shop inventory backend.

This file gives a shallow embedding of the inventory-relevant parts of the
repository and proves properties about them:

* `models/Sweet.js` : the `Sweet` schema (fields, validators, the
  `pre('save')` hook that recomputes `inStock` from `quantity`);
* `controllers/sweetController.js` : `getSweetById`, `createSweet`,
  `updateSweet` and `purchaseSweet`.

Numbers coming from JSON request bodies are modelled as `Rat` (JavaScript
numbers, so that `Number.isInteger` checks are meaningful); the stored
`quantity` is an `Int` (the schema validates it to be a whole number) and
`price` is a `Rat`.  MongoDB document ids are `Nat`; a request-supplied id
string is either a well-formed id or malformed (in which case Mongoose
throws a `CastError` before the query reaches the database).  The store is
an association list from ids to documents.  Wall-clock timestamps are
passed in explicitly where a document is created (`createdAt`); the
`updatedAt` timestamp is irrelevant to every property proved here and is
not modelled.

The purchase endpoint performs its store accesses in separate steps
(an atomic conditional decrement via `findOneAndUpdate`/`$inc`, an optional
disambiguating `findById`, and a `save` that writes the recomputed
`inStock`), so alongside the sequential controller functions we define a
small interleaving semantics: each in-flight purchase request is a thread
whose program counter sits between store accesses, and a scheduler step
relation executes one store access of one thread atomically.
-/

namespace SweetShop

/-- A document id in the `sweets` collection. -/
abbrev SweetId := Nat

/-- A stored sweet document, following the schema in `models/Sweet.js`.
The `updatedAt` timestamp is omitted (never read by any endpoint modelled
here); `createdAt` is kept because updates must not touch it. -/
structure Sweet where
  name : String
  category : String
  price : Rat
  quantity : Int
  description : Option String
  inStock : Bool
  createdAt : Nat
  deriving Repr, DecidableEq

/-- The `sweets` collection: an association list from ids to documents. -/
abbrev Store := List (SweetId × Sweet)

/-- Mongoose `Model.findById` : the document bound to `i`, if any. -/
def Store.findById : Store → SweetId → Option Sweet
  | [], _ => none
  | (j, s) :: rest, i => if j = i then some s else Store.findById rest i

/-- Replace the document bound to `i` (no change if `i` is absent). -/
def Store.setById : Store → SweetId → Sweet → Store
  | [], _, _ => []
  | (j, s) :: rest, i, d =>
      if j = i then (j, d) :: rest else (j, s) :: Store.setById rest i d

/-- The id string taken from the request path.  Mongoose casts it to an
`ObjectId`; a malformed string makes the query throw a `CastError` before
anything is sent to the database. -/
inductive ObjectIdStr
  | valid (i : SweetId)
  | malformed
  deriving Repr, DecidableEq

/-- Categories allowed by the schema enum in `models/Sweet.js`. -/
def categoryEnum : List String :=
  ["Chocolate", "Candy", "Gummy", "Lollipop", "Hard Candy", "Soft Candy", "Other"]

/-- Schema validation of a full document (run by Mongoose on `save`),
after setters such as `trim` have been applied: name length 2–100,
category in the enum, `price > 0` (the custom validator subsumes the
`min: 0` bound), `quantity >= 0`, description at most 500 characters.
The `quantity` integrality validator is implicit here because the model
stores `quantity` as `Int`; callers that accept a JSON number check
integrality before building the document. -/
def schemaValidate (s : Sweet) : Bool :=
  decide (2 ≤ s.name.length) && decide (s.name.length ≤ 100) &&
  categoryEnum.contains s.category &&
  decide (0 < s.price) && decide (0 ≤ s.quantity) &&
  s.description.all (fun d => decide (d.length ≤ 500))

/-- The `pre('save')` hook in `models/Sweet.js`:
`this.inStock = this.quantity > 0`. -/
def preSaveHook (s : Sweet) : Sweet :=
  { s with inStock := decide (0 < s.quantity) }

/-- The `findOneAndUpdate` call of `purchaseSweet`: filter
`_id = i ∧ quantity ≥ amt`, update `$inc quantity by -amt`, option
`new: true`.  One atomic store operation: returns the post-update document
and the new store, or `none` with the store unchanged when no document
matches the filter. -/
def findOneAndUpdateDec (st : Store) (i : SweetId) (amt : Int) :
    Option Sweet × Store :=
  match st.findById i with
  | some s =>
      if amt ≤ s.quantity then
        let d := { s with quantity := s.quantity - amt }
        (some d, st.setById i d)
      else (none, st)
  | none => (none, st)

/-- The `sweet.inStock = sweet.quantity > 0; await sweet.save()` step of
`purchaseSweet`.  The hydrated document `doc` was just returned by
`findOneAndUpdate`; the controller assignment and the `pre('save')` hook
both set `inStock` to `doc.quantity > 0`.  Mongoose `save` writes only the
modified paths: if the recomputed value already equals the hydrated one the
path is not marked modified and nothing is written; otherwise a
`$set` of the single `inStock` path is applied to the stored document
(`quantity` is not written back).  Returns the in-memory document and the
new store. -/
def saveInStock (st : Store) (i : SweetId) (doc : Sweet) : Sweet × Store :=
  let b := decide (0 < doc.quantity)
  let d := { doc with inStock := b }
  if b = doc.inStock then (d, st)
  else
    (d, match st.findById i with
        | some s => st.setById i { s with inStock := b }
        | none => st)

/-- Outcome of `purchaseSweet`, as the HTTP layer observes it:
200 with the updated document, 400 for a bad amount, 404, or 400 with the
available quantity. -/
inductive PurchaseResult
  | success (item : Sweet)
  | invalidAmount
  | notFound
  | insufficientStock (available : Int)
  deriving Repr, DecidableEq

/-- One store access performed by `purchaseSweet`, recorded so that
statements about which store operations run (and how many) can be made. -/
inductive StoreAccess
  | condDec (i : SweetId) (amt : Int)
  | readById (i : SweetId)
  | saveDoc (i : SweetId)
  deriving Repr, DecidableEq

/-- The `purchaseSweet` controller.  The request body's `quantity` field
(default 1 via destructuring) is validated to be a positive integer before
any store access; then the conditional atomic decrement runs; a `null`
result is disambiguated by a single `findById`; on success the recomputed
`inStock` is written by a separate `save`.  A malformed id makes the first
query throw `CastError`, caught and answered as not-found, with nothing
sent to the store.  Returns the result, the final store, and the list of
store accesses performed, in order. -/
def purchaseSweet (st : Store) (rid : ObjectIdStr) (body : Option Rat) :
    PurchaseResult × Store × List StoreAccess :=
  let quantity := body.getD 1
  if quantity < 1 ∨ quantity.den ≠ 1 then
    (.invalidAmount, st, [])
  else
    match rid with
    | .malformed => (.notFound, st, [])
    | .valid i =>
        let amt := quantity.num
        match findOneAndUpdateDec st i amt with
        | (some sweet, st1) =>
            let (d, st2) := saveInStock st1 i sweet
            (.success d, st2, [.condDec i amt, .saveDoc i])
        | (none, _) =>
            match st.findById i with
            | none => (.notFound, st, [.condDec i amt, .readById i])
            | some existingSweet =>
                (.insufficientStock existingSweet.quantity, st,
                  [.condDec i amt, .readById i])

/-- Outcome of `getSweetById`: 200 with the document, or 404 (used both
when no document matches and when the id string fails to cast). -/
inductive GetSweetResult
  | ok (item : Sweet)
  | notFound
  deriving Repr, DecidableEq

/-- The `getSweetById` controller: `findById`, 404 when nothing is found,
and the `CastError` handler also answers 404. -/
def getSweetById (st : Store) (rid : ObjectIdStr) : GetSweetResult :=
  match rid with
  | .malformed => .notFound
  | .valid i =>
      match st.findById i with
      | some sweet => .ok sweet
      | none => .notFound

/-- Request body of `createSweet` (destructured fields; absent = `none`).
`quantity` and `price` arrive as JSON numbers. -/
structure CreateBody where
  name : Option String
  category : Option String
  price : Option Rat
  quantity : Option Rat
  description : Option String
  deriving Repr, DecidableEq

/-- Outcome of `createSweet`: 201 with the document, or 400. -/
inductive CreateResult
  | created (item : Sweet)
  | badRequest
  deriving Repr, DecidableEq

/-- The `createSweet` controller.  Required-field check (JavaScript
falsiness: an absent or empty string fails `!name`), then `price <= 0` and
`quantity < 0` checks, then `Sweet.create`, which applies the schema
setters (`trim`), validators (including `Number.isInteger` on `quantity`)
and the `pre('save')` hook before inserting the document under a fresh id.
`freshId` and `now` stand for the generated `_id` and the `createdAt`
timestamp. -/
def createSweet (st : Store) (freshId : SweetId) (now : Nat) (b : CreateBody) :
    CreateResult × Store :=
  if b.name.getD "" = "" ∨ b.category.getD "" = "" ∨
      b.price = none ∨ b.quantity = none then
    (.badRequest, st)
  else
    match b.price, b.quantity with
    | some price, some quantity =>
        if price ≤ 0 then (.badRequest, st)
        else if quantity < 0 then (.badRequest, st)
        else if quantity.den ≠ 1 then (.badRequest, st)
        else
          let doc : Sweet :=
            { name := (b.name.getD "").trim
              category := (b.category.getD "").trim
              price := price
              quantity := quantity.num
              description := b.description.map String.trim
              inStock := true
              createdAt := now }
          if schemaValidate doc then
            let d := preSaveHook doc
            (.created d, (freshId, d) :: st)
          else (.badRequest, st)
    | _, _ => (.badRequest, st)

/-- Request body of `updateSweet` (destructured fields; absent = `none`).
Mongoose strips keys whose value is `undefined` from the update document,
so an absent field is simply not part of the `$set`. -/
structure UpdateBody where
  name : Option String
  category : Option String
  price : Option Rat
  quantity : Option Rat
  description : Option String
  deriving Repr, DecidableEq

/-- Outcome of `updateSweet`: 200 with the updated document, 400, or 404. -/
inductive UpdateResult
  | ok (item : Sweet)
  | badRequest
  | notFound
  deriving Repr, DecidableEq

/-- Update validators (`runValidators: true`): each path present in the
update document is checked against its schema validators, after setters
such as `trim`. -/
def updateValidators (b : UpdateBody) : Bool :=
  b.name.all (fun n => decide (2 ≤ n.trim.length) && decide (n.trim.length ≤ 100)) &&
  b.category.all (fun c => categoryEnum.contains c.trim) &&
  b.price.all (fun p => decide (0 < p)) &&
  b.quantity.all (fun q => decide (0 ≤ q) && decide (q.den = 1)) &&
  b.description.all (fun d => decide (d.trim.length ≤ 500))

/-- Apply the `$set` part of `findByIdAndUpdate` to a stored document:
exactly the supplied fields are replaced (after setters), everything else
keeps its value.  `inStock` is not part of the update document, and
`findByIdAndUpdate` does not run the `pre('save')` hook, so `inStock` is
left untouched; `createdAt` is likewise untouched. -/
def applyUpdate (s : Sweet) (b : UpdateBody) : Sweet :=
  { s with
    name := match b.name with | some n => n.trim | none => s.name
    category := match b.category with | some c => c.trim | none => s.category
    price := b.price.getD s.price
    quantity := match b.quantity with | some q => q.num | none => s.quantity
    description := match b.description with
                   | some d => some d.trim
                   | none => s.description }

/-- The `updateSweet` controller: explicit `price`/`quantity` checks when
those fields are supplied, then `findByIdAndUpdate` with
`runValidators: true` and `new: true`.  A malformed id (`CastError`) and a
missing document both answer 404; a validator failure answers 400. -/
def updateSweet (st : Store) (rid : ObjectIdStr) (b : UpdateBody) :
    UpdateResult × Store :=
  if b.price.any (fun p => decide (p ≤ 0)) then (.badRequest, st)
  else if b.quantity.any (fun q => decide (q < 0)) then (.badRequest, st)
  else
    match rid with
    | .malformed => (.notFound, st)
    | .valid i =>
        if updateValidators b then
          match st.findById i with
          | none => (.notFound, st)
          | some s =>
              let d := applyUpdate s b
              (.ok d, st.setById i d)
        else (.badRequest, st)

/-!
Interleaving semantics for concurrent purchase requests.  Each in-flight
request is a thread; its program counter sits between the store accesses of
`purchaseSweet` (validation, which touches no store; the conditional
decrement; either the disambiguating read or the `inStock` save).  The
request parameters that remain in scope in the JavaScript closure (the
target id, the validated amount, the hydrated document) are carried in the
thread state.  A scheduler step executes the next store access of one
thread atomically; the order of steps across threads is arbitrary.
Malformed id strings never reach the store (shown on the sequential
controller), so threads here carry a well-formed id.
-/

/-- Program counter of one in-flight purchase request. -/
inductive PurchasePC
  | start (body : Option Rat)
  | atCondDec (amt : Int)
  | atSave (amt : Int) (doc : Sweet)
  | atLookup (amt : Int)
  | finished (amt : Int) (r : PurchaseResult)
  deriving Repr, DecidableEq

/-- Whether a purchase request has produced its response. -/
def PurchasePC.isFinished : PurchasePC → Bool
  | .finished _ _ => true
  | _ => false

/-- One in-flight purchase request: target id and program counter. -/
structure PThread where
  sid : SweetId
  pc : PurchasePC
  deriving Repr, DecidableEq

/-- A configuration of the concurrent system: the store plus the in-flight
purchase requests. -/
structure Config where
  store : Store
  threads : List PThread
  deriving Repr, DecidableEq

/-- The next micro-step of one purchase request against the store, between
two consecutive store accesses of `purchaseSweet` (deterministic given the
store; scheduling is the only nondeterminism).  A finished thread does not
move. -/
def threadMicroStep (st : Store) (i : SweetId) : PurchasePC → Store × PurchasePC
  | .start body =>
      let quantity := body.getD 1
      if quantity < 1 ∨ quantity.den ≠ 1 then (st, .finished 0 .invalidAmount)
      else (st, .atCondDec quantity.num)
  | .atCondDec amt =>
      match findOneAndUpdateDec st i amt with
      | (some doc, st2) => (st2, .atSave amt doc)
      | (none, st2) => (st2, .atLookup amt)
  | .atSave amt doc =>
      let (d, st2) := saveInStock st i doc
      (st2, .finished amt (.success d))
  | .atLookup amt =>
      match st.findById i with
      | none => (st, .finished amt .notFound)
      | some s => (st, .finished amt (.insufficientStock s.quantity))
  | .finished amt r => (st, .finished amt r)

/-- Scheduler step: some unfinished thread performs its next micro-step. -/
inductive Step : Config → Config → Prop
  | sched (st st2 : Store) (ts1 ts2 : List PThread) (i : SweetId)
      (pc pc2 : PurchasePC) :
      pc.isFinished = false →
      threadMicroStep st i pc = (st2, pc2) →
      Step ⟨st, ts1 ++ ⟨i, pc⟩ :: ts2⟩ ⟨st2, ts1 ++ ⟨i, pc2⟩ :: ts2⟩

/-- Reachability under arbitrary interleaving of purchase requests. -/
def Reachable : Config → Config → Prop :=
  Relation.ReflTransGen Step

/-- Amount already taken out of the store by this request: `amt` once its
conditional decrement has succeeded (program counter past `atCondDec` on
the success path), `0` otherwise. -/
def PurchasePC.decAmt : PurchasePC → Int
  | .atSave amt _ => amt
  | .finished amt (.success _) => amt
  | _ => 0

/-- Total amount taken out of the store by a list of requests. -/
def spentSum (ts : List PThread) : Int :=
  (ts.map fun t => t.pc.decAmt).sum

/-- Amounts of the requests that completed successfully. -/
def successAmts (ts : List PThread) : List Int :=
  ts.filterMap fun t =>
    match t.pc with
    | .finished amt (.success _) => some amt
    | _ => none

/-!
Basic lemmas about the store operations.
-/

theorem Store.findById_setById_self (st : Store) (i : SweetId) (d s : Sweet)
    (h : st.findById i = some s) :
    (st.setById i d).findById i = some d := by
  induction st with
  | nil => simp [Store.findById] at h
  | cons hd tl ih =>
    obtain ⟨j, s0⟩ := hd
    by_cases hj : j = i
    · subst hj
      simp [Store.setById, Store.findById]
    · simp only [Store.findById, Store.setById, if_neg hj] at h ⊢
      exact ih h

theorem Store.findById_setById_ne (st : Store) (i j : SweetId) (d : Sweet)
    (h : j ≠ i) :
    (st.setById i d).findById j = st.findById j := by
  induction st with
  | nil => simp [Store.setById]
  | cons hd tl ih =>
    obtain ⟨k, s0⟩ := hd
    by_cases hk : k = i
    · subst hk
      have hkj : ¬ (k = j) := fun hh => h (hh ▸ rfl)
      simp [Store.setById, Store.findById, hkj]
    · simp only [Store.setById, if_neg hk, Store.findById]
      by_cases hkj : k = j
      · simp [hkj]
      · simp [hkj, ih]

theorem findOneAndUpdateDec_some (st : Store) (i : SweetId) (amt : Int)
    (d : Sweet) (st2 : Store)
    (h : findOneAndUpdateDec st i amt = (some d, st2)) :
    ∃ s, st.findById i = some s ∧ amt ≤ s.quantity ∧
      d = { s with quantity := s.quantity - amt } ∧
      st2 = st.setById i d := by
  unfold findOneAndUpdateDec at h
  split at h
  next s hf =>
    split at h
    next hq =>
      simp only [Prod.mk.injEq, Option.some.injEq] at h
      obtain ⟨h1, h2⟩ := h
      exact ⟨s, hf, hq, h1.symm, by rw [← h1, ← h2]⟩
    next hq => simp at h
  next hf => simp at h

theorem findOneAndUpdateDec_none (st : Store) (i : SweetId) (amt : Int)
    (st2 : Store) (h : findOneAndUpdateDec st i amt = (none, st2)) :
    st2 = st := by
  unfold findOneAndUpdateDec at h
  split at h
  next s hf =>
    split at h
    next hq => simp at h
    next hq => simp only [Prod.mk.injEq] at h; exact h.2.symm
  next hf => simp only [Prod.mk.injEq] at h; exact h.2.symm

theorem saveInStock_doc (st : Store) (i : SweetId) (doc : Sweet) :
    (saveInStock st i doc).1 = { doc with inStock := decide (0 < doc.quantity) } := by
  unfold saveInStock
  by_cases hb : decide (0 < doc.quantity) = doc.inStock
  · simp [hb]
  · simp [if_neg hb]

theorem saveInStock_store_quantity (st : Store) (i : SweetId) (doc s : Sweet)
    (h : st.findById i = some s) :
    ∃ s2, (saveInStock st i doc).2.findById i = some s2 ∧
      s2.quantity = s.quantity ∧
      (s2.inStock = s.inStock ∨ s2.inStock = decide (0 < doc.quantity)) := by
  unfold saveInStock
  by_cases hb : decide (0 < doc.quantity) = doc.inStock
  · simp only [hb, if_pos rfl, if_true]
    exact ⟨s, h, rfl, Or.inl rfl⟩
  · simp only [if_neg hb, h]
    refine ⟨_, Store.findById_setById_self st i _ s h, rfl, Or.inr rfl⟩

/-!
Helper lemmas characterizing the controller paths.
-/

theorem purchaseSweet_success_eq (st : Store) (i : SweetId) (s : Sweet) (q : Rat)
    (hfind : st.findById i = some s) (hq1 : 1 ≤ q) (hden : q.den = 1)
    (hle : q.num ≤ s.quantity) :
    ∃ d st2,
      purchaseSweet st (.valid i) (some q) =
        (.success d, st2, [.condDec i q.num, .saveDoc i]) ∧
      d = { s with quantity := s.quantity - q.num,
                   inStock := decide (0 < s.quantity - q.num) } ∧
      st2.findById i = some d ∧
      (∀ j, j ≠ i → st2.findById j = st.findById j) := by
  have hnotlt : ¬ ((q : Rat) < 1 ∨ q.den ≠ 1) := by
    push_neg
    exact ⟨hq1, hden⟩
  set d0 : Sweet := { s with quantity := s.quantity - q.num } with hd0
  have hdec : findOneAndUpdateDec st i q.num = (some d0, st.setById i d0) := by
    unfold findOneAndUpdateDec
    simp only [hfind]
    rw [if_pos hle]
  have hfind1 : (st.setById i d0).findById i = some d0 :=
    Store.findById_setById_self st i d0 s hfind
  unfold purchaseSweet
  simp only [Option.getD_some]
  rw [if_neg hnotlt]
  simp only [hdec]
  by_cases hb : decide (0 < d0.quantity) = d0.inStock
  · have hsave : saveInStock (st.setById i d0) i d0 =
        ({ d0 with inStock := decide (0 < d0.quantity) }, st.setById i d0) := by
      unfold saveInStock
      rw [if_pos hb]
    rw [hsave]
    refine ⟨_, _, rfl, rfl, ?_, ?_⟩
    · rw [hfind1]
      congr 1
      rw [hb]
    · intro j hj
      exact Store.findById_setById_ne st i j d0 hj
  · have hsave : saveInStock (st.setById i d0) i d0 =
        ({ d0 with inStock := decide (0 < d0.quantity) },
         (st.setById i d0).setById i { d0 with inStock := decide (0 < d0.quantity) }) := by
      unfold saveInStock
      rw [if_neg hb, hfind1]
    rw [hsave]
    refine ⟨_, _, rfl, rfl, ?_, ?_⟩
    · exact Store.findById_setById_self (st.setById i d0) i _ d0 hfind1
    · intro j hj
      rw [Store.findById_setById_ne (st.setById i d0) i j _ hj]
      exact Store.findById_setById_ne st i j d0 hj

theorem updateSweet_ok_eq (st : Store) (i : SweetId) (s : Sweet)
    (b : UpdateBody) (d : Sweet) (st2 : Store)
    (hfind : st.findById i = some s)
    (h : updateSweet st (.valid i) b = (.ok d, st2)) :
    d = applyUpdate s b ∧ st2 = st.setById i d := by
  unfold updateSweet at h
  by_cases hp : b.price.any (fun p => decide (p ≤ 0))
  · rw [if_pos hp] at h
    simp at h
  · by_cases hq : b.quantity.any (fun q => decide (q < 0))
    · rw [if_neg hp, if_pos hq] at h
      simp at h
    · by_cases hv : updateValidators b
      · simp only [if_neg hp, if_neg hq, if_pos hv, hfind, Prod.mk.injEq,
          UpdateResult.ok.injEq] at h
        exact ⟨h.1.symm, by rw [h.2.symm, h.1]⟩
      · simp only [if_neg hp, if_neg hq, if_neg hv, Prod.mk.injEq] at h
        simp at h

theorem createSweet_created_eq (st : Store) (fid : SweetId) (now : Nat)
    (b : CreateBody) (d : Sweet) (st2 : Store)
    (h : createSweet st fid now b = (.created d, st2)) :
    d.inStock = decide (0 < d.quantity) ∧ st2.findById fid = some d := by
  simp only [createSweet] at h
  split at h
  · simp at h
  · split at h
    next price quantity =>
      split at h
      · simp at h
      · split at h
        · simp at h
        · split at h
          · simp at h
          · split at h
            next hvalid =>
              simp only [Prod.mk.injEq, CreateResult.created.injEq] at h
              obtain ⟨hd, hst2⟩ := h
              subst hd
              constructor
              · rfl
              · rw [← hst2]
                simp [Store.findById]
            next hvalid => simp at h
    next => simp at h

theorem purchaseSweet_success_inStock (st : Store) (rid : ObjectIdStr)
    (body : Option Rat) (d : Sweet) (st2 : Store) (tr : List StoreAccess)
    (h : purchaseSweet st rid body = (.success d, st2, tr)) :
    d.inStock = decide (0 < d.quantity) := by
  by_cases hval : (body.getD 1) < 1 ∨ (body.getD 1).den ≠ 1
  · simp only [purchaseSweet] at h
    rw [if_pos hval] at h
    simp at h
  · cases rid with
    | malformed =>
      simp only [purchaseSweet] at h
      rw [if_neg hval] at h
      simp at h
    | valid i =>
      simp only [purchaseSweet] at h
      rw [if_neg hval] at h
      obtain ⟨od, st1, hfu⟩ : ∃ od st1,
          findOneAndUpdateDec st i (body.getD 1).num = (od, st1) := ⟨_, _, rfl⟩
      rw [hfu] at h
      cases od with
      | some d1 =>
        obtain ⟨dd, ss, hsave⟩ : ∃ dd ss, saveInStock st1 i d1 = (dd, ss) := ⟨_, _, rfl⟩
        simp only [hsave, Prod.mk.injEq, PurchaseResult.success.injEq] at h
        have hdd : dd = { d1 with inStock := decide (0 < d1.quantity) } := by
          have hdoc := saveInStock_doc st1 i d1
          rw [hsave] at hdoc
          exact hdoc
        rw [← h.1, hdd]
      | none =>
        cases hfi : st.findById i with
        | none => simp [hfi] at h
        | some s => simp [hfi] at h

/-!
Helper lemmas for the interleaving semantics.
-/

theorem spentSum_middle (ts1 ts2 : List PThread) (t : PThread) :
    spentSum (ts1 ++ t :: ts2) = spentSum ts1 + t.pc.decAmt + spentSum ts2 := by
  simp only [spentSum, List.map_append, List.map_cons, List.sum_append, List.sum_cons]
  ring

theorem step_preserves_inv (i : SweetId) (q0 : Int) (c c2 : Config)
    (hstep : Step c c2) (hall : ∀ t ∈ c.threads, t.sid = i)
    (hinv : ∃ s, c.store.findById i = some s ∧
        s.quantity = q0 - spentSum c.threads ∧ 0 ≤ s.quantity) :
    (∀ t ∈ c2.threads, t.sid = i) ∧
    ∃ s, c2.store.findById i = some s ∧
      s.quantity = q0 - spentSum c2.threads ∧ 0 ≤ s.quantity := by
  cases hstep with
  | sched st st2 ts1 ts2 j pc pc2 hfin hms =>
    have hj : j = i := hall ⟨j, pc⟩ (List.mem_append_right _ (List.mem_cons_self _ _))
    subst hj
    have hall2 : ∀ t ∈ ts1 ++ (⟨j, pc2⟩ : PThread) :: ts2, t.sid = j := by
      intro t ht
      rcases List.mem_append.mp ht with h1 | h2
      · exact hall t (List.mem_append_left _ h1)
      · rcases List.mem_cons.mp h2 with h3 | h4
        · rw [h3]
        · exact hall t (List.mem_append_right _ (List.mem_cons_of_mem _ h4))
    refine ⟨hall2, ?_⟩
    obtain ⟨s, hfind, hqty, hpos⟩ := hinv
    simp only [spentSum_middle] at hqty ⊢
    cases pc with
    | start body =>
      simp only [threadMicroStep] at hms
      by_cases hv : (body.getD 1) < 1 ∨ (body.getD 1).den ≠ 1
      · rw [if_pos hv] at hms
        injection hms with h1 h2
        subst h1
        subst h2
        refine ⟨s, hfind, ?_, hpos⟩
        simpa [PurchasePC.decAmt] using hqty
      · rw [if_neg hv] at hms
        injection hms with h1 h2
        subst h1
        subst h2
        refine ⟨s, hfind, ?_, hpos⟩
        simpa [PurchasePC.decAmt] using hqty
    | atCondDec a =>
      simp only [threadMicroStep] at hms
      obtain ⟨od, st1, hfu⟩ : ∃ od st1, findOneAndUpdateDec st j a = (od, st1) :=
        ⟨_, _, rfl⟩
      rw [hfu] at hms
      cases od with
      | some doc =>
        injection hms with h1 h2
        subst h1
        subst h2
        obtain ⟨s2, hfind2, hle2, hdoc2, hst2⟩ := findOneAndUpdateDec_some st j a doc st1 hfu
        rw [hfind] at hfind2
        injection hfind2 with hs2
        subst hs2
        subst hst2
        subst hdoc2
        refine ⟨_, Store.findById_setById_self st j _ s hfind, ?_, ?_⟩
        · simp only [PurchasePC.decAmt] at hqty ⊢
          show s.quantity - a = q0 - (spentSum ts1 + a + spentSum ts2)
          omega
        · show (0 : Int) ≤ s.quantity - a
          omega
      | none =>
        injection hms with h1 h2
        subst h1
        subst h2
        have hst1 : st1 = st := findOneAndUpdateDec_none st j a st1 hfu
        subst hst1
        refine ⟨s, hfind, ?_, hpos⟩
        simpa [PurchasePC.decAmt] using hqty
    | atSave a doc =>
      simp only [threadMicroStep] at hms
      obtain ⟨dd, ss, hsave⟩ : ∃ dd ss, saveInStock st j doc = (dd, ss) := ⟨_, _, rfl⟩
      rw [hsave] at hms
      injection hms with h1 h2
      subst h1
      subst h2
      obtain ⟨s2, hfind2, hq2, _⟩ := saveInStock_store_quantity st j doc s hfind
      rw [hsave] at hfind2
      refine ⟨s2, hfind2, ?_, ?_⟩
      · rw [hq2]
        simpa [PurchasePC.decAmt] using hqty
      · rw [hq2]
        exact hpos
    | atLookup a =>
      cases hfi : st.findById j with
      | none =>
        simp only [threadMicroStep, hfi] at hms
        injection hms with h1 h2
        subst h1
        subst h2
        refine ⟨s, hfind, ?_, hpos⟩
        simpa [PurchasePC.decAmt] using hqty
      | some s1 =>
        simp only [threadMicroStep, hfi] at hms
        injection hms with h1 h2
        subst h1
        subst h2
        refine ⟨s, hfind, ?_, hpos⟩
        simpa [PurchasePC.decAmt] using hqty
    | finished a r => simp [PurchasePC.isFinished] at hfin

theorem spentSum_start (i : SweetId) (bodies : List (Option Rat)) :
    spentSum (bodies.map fun b => ⟨i, PurchasePC.start b⟩) = 0 := by
  induction bodies with
  | nil => rfl
  | cons b bs ih =>
    simp only [List.map_cons, spentSum, List.sum_cons, PurchasePC.decAmt] at ih ⊢
    omega

theorem spentSum_eq_successAmts (ts : List PThread)
    (h : ∀ t ∈ ts, t.pc.isFinished = true) :
    spentSum ts = (successAmts ts).sum := by
  induction ts with
  | nil => rfl
  | cons t ts ih =>
    have ht := h t (List.mem_cons_self _ _)
    have hts := ih fun t htm => h t (List.mem_cons_of_mem _ htm)
    cases hpc : t.pc with
    | finished a r =>
      cases r with
      | success d =>
        simp only [spentSum, successAmts, List.map_cons, List.sum_cons,
          List.filterMap_cons, hpc, PurchasePC.decAmt] at hts ⊢
        omega
      | invalidAmount =>
        simp only [spentSum, successAmts, List.map_cons, List.sum_cons,
          List.filterMap_cons, hpc, PurchasePC.decAmt] at hts ⊢
        omega
      | notFound =>
        simp only [spentSum, successAmts, List.map_cons, List.sum_cons,
          List.filterMap_cons, hpc, PurchasePC.decAmt] at hts ⊢
        omega
      | insufficientStock q =>
        simp only [spentSum, successAmts, List.map_cons, List.sum_cons,
          List.filterMap_cons, hpc, PurchasePC.decAmt] at hts ⊢
        omega
    | start body => rw [hpc] at ht; simp [PurchasePC.isFinished] at ht
    | atCondDec a => rw [hpc] at ht; simp [PurchasePC.isFinished] at ht
    | atSave a doc => rw [hpc] at ht; simp [PurchasePC.isFinished] at ht
    | atLookup a => rw [hpc] at ht; simp [PurchasePC.isFinished] at ht

theorem reachable_inv (i : SweetId) (q0 : Int) (c0 c : Config)
    (hreach : Reachable c0 c)
    (hall0 : ∀ t ∈ c0.threads, t.sid = i)
    (hinv0 : ∃ s, c0.store.findById i = some s ∧
        s.quantity = q0 - spentSum c0.threads ∧ 0 ≤ s.quantity) :
    (∀ t ∈ c.threads, t.sid = i) ∧
    ∃ s, c.store.findById i = some s ∧
      s.quantity = q0 - spentSum c.threads ∧ 0 ≤ s.quantity := by
  induction hreach with
  | refl => exact ⟨hall0, hinv0⟩
  | tail hab hbc ih => exact step_preserves_inv i q0 _ _ hbc ih.1 ih.2

/-!
Claim theorems.
-/

/-- Sample document for the C1 counterexample: in stock with quantity 5. -/
def c1Sweet : Sweet :=
  { name := "Chocolate Bar", category := "Chocolate", price := 5, quantity := 5,
    description := none, inStock := true, createdAt := 0 }

/-- Update body supplying only `quantity := 0`. -/
def c1Body : UpdateBody :=
  { name := none, category := none, price := none, quantity := some 0,
    description := none }

/-- The document after the C1 counterexample update. -/
def c1Updated : Sweet := { c1Sweet with quantity := 0 }

/-- C1, counterexample: an admin update that sets `quantity` to 0 completes
with 200 but leaves `inStock = true` — `findByIdAndUpdate` neither includes
`inStock` in the update nor triggers the `pre('save')` hook, so the claimed
invariant `inStock == (quantity > 0)` fails after `updateSweet`. -/
theorem updateSweet_quantity_zero_keeps_inStock_cex :
    updateSweet [(0, c1Sweet)] (.valid 0) c1Body =
      (.ok c1Updated, [(0, c1Updated)]) ∧
    c1Updated.quantity = 0 ∧ c1Updated.inStock = true := by
  refine ⟨?_, rfl, rfl⟩
  decide

/-- C1 (amended): after a completed `createSweet` the created document has
`inStock = (quantity > 0)` and is stored as returned; after a completed
successful `purchaseSweet` the returned document has
`inStock = (quantity > 0)`; `updateSweet`, however, never recomputes
`inStock` — the updated document keeps the previous `inStock` value even
when the update sets `quantity` (in particular to 0). -/
theorem inStock_invariant_create_purchase_update :
    (∀ st fid now b d st2, createSweet st fid now b = (.created d, st2) →
      d.inStock = decide (0 < d.quantity) ∧ st2.findById fid = some d) ∧
    (∀ st rid body d st2 tr, purchaseSweet st rid body = (.success d, st2, tr) →
      d.inStock = decide (0 < d.quantity)) ∧
    (∀ st i s b d st2, Store.findById st i = some s →
      updateSweet st (.valid i) b = (.ok d, st2) →
      d.inStock = s.inStock ∧ ∀ q, b.quantity = some q → d.quantity = q.num) := by
  refine ⟨fun st fid now b d st2 h => createSweet_created_eq st fid now b d st2 h,
    fun st rid body d st2 tr h => purchaseSweet_success_inStock st rid body d st2 tr h,
    fun st i s b d st2 hfind h => ?_⟩
  obtain ⟨hd, -⟩ := updateSweet_ok_eq st i s b d st2 hfind h
  subst hd
  exact ⟨rfl, fun q hq => by simp [applyUpdate, hq]⟩

/-- Sample document for the C1 witness: last item in stock. -/
def c1wSweet : Sweet :=
  { name := "Last One", category := "Candy", price := 3, quantity := 1,
    description := none, inStock := true, createdAt := 0 }

/-- Witness for C1's amended theorem at a concrete purchase of the last
item: the returned document has quantity 0 and `inStock = false`. -/
theorem inStock_invariant_create_purchase_update_witness :
    purchaseSweet [(0, c1wSweet)] (.valid 0) (some 1) =
      (.success { c1wSweet with quantity := 0, inStock := false },
       [(0, { c1wSweet with quantity := 0, inStock := false })],
       [.condDec 0 1, .saveDoc 0]) ∧
    ({ c1wSweet with quantity := 0, inStock := false } : Sweet).inStock =
      decide (0 < ({ c1wSweet with quantity := 0, inStock := false } : Sweet).quantity) :=
  ⟨by decide,
   inStock_invariant_create_purchase_update.2.1 [(0, c1wSweet)] (.valid 0) (some 1)
     { c1wSweet with quantity := 0, inStock := false }
     [(0, { c1wSweet with quantity := 0, inStock := false })]
     [.condDec 0 1, .saveDoc 0] (by decide)⟩

/-- Sample document for the C2 counterexample: one item left, in stock. -/
def c2Sweet : Sweet :=
  { name := "Last One Sweet", category := "Candy", price := 3, quantity := 1,
    description := none, inStock := true, createdAt := 0 }

/-- The stored document between the two store operations of the purchase. -/
def c2MidDoc : Sweet := { c2Sweet with quantity := 0 }

/-- C2, counterexample: the decrement and the `inStock` recomputation are
not one indivisible store operation.  Starting from an item with quantity 1
and `inStock = true`, after the purchase's conditional decrement but before
its separate `save`, a configuration is reachable whose store holds the
item with `quantity = 0` and `inStock = true` — exactly the intermediate
state the claim asserts no reader can observe. -/
theorem purchase_decrement_save_window_cex :
    Reachable ⟨[(0, c2Sweet)], [⟨0, .start (some 1)⟩]⟩
      ⟨[(0, c2MidDoc)], [⟨0, .atSave 1 c2MidDoc⟩]⟩ ∧
    Store.findById [(0, c2MidDoc)] 0 = some c2MidDoc ∧
    c2MidDoc.quantity = 0 ∧ c2MidDoc.inStock = true ∧
    (PurchasePC.atSave 1 c2MidDoc).isFinished = false := by
  refine ⟨?_, rfl, rfl, rfl, rfl⟩
  have s1 : Step ⟨[(0, c2Sweet)], [⟨0, .start (some 1)⟩]⟩
      ⟨[(0, c2Sweet)], [⟨0, .atCondDec 1⟩]⟩ :=
    Step.sched _ _ [] [] 0 _ _ rfl (by decide)
  have s2 : Step ⟨[(0, c2Sweet)], [⟨0, .atCondDec 1⟩]⟩
      ⟨[(0, c2MidDoc)], [⟨0, .atSave 1 c2MidDoc⟩]⟩ :=
    Step.sched _ _ [] [] 0 _ _ rfl (by decide)
  exact Relation.ReflTransGen.refl.tail s1 |>.tail s2

/-- C2 (amended): the purchase performs the quantity decrement and the
`inStock` recomputation as two separate store operations.  The conditional
decrement is atomic, and afterwards a configuration is reachable in which
the stored item already has the decremented quantity while `inStock` still
has its pre-purchase value (so a reader can see `quantity = 0` with
`inStock = true` when the purchase empties the stock); the follow-up save
then writes `inStock`, and once the purchase completes the stored item
satisfies `inStock = (quantity > 0)` again. -/
theorem purchase_two_step_decrement_then_save (st : Store) (i : SweetId) (s : Sweet)
    (a : Int) (hfind : st.findById i = some s) (ha : 1 ≤ a) (hle : a ≤ s.quantity) :
    Reachable ⟨st, [⟨i, .start (some (a : Rat))⟩]⟩
      ⟨st.setById i { s with quantity := s.quantity - a },
       [⟨i, .atSave a { s with quantity := s.quantity - a }⟩]⟩ ∧
    (st.setById i { s with quantity := s.quantity - a }).findById i =
      some { s with quantity := s.quantity - a } ∧
    ({ s with quantity := s.quantity - a } : Sweet).inStock = s.inStock ∧
    (PurchasePC.atSave a { s with quantity := s.quantity - a }).isFinished = false ∧
    ∃ d st2,
      purchaseSweet st (.valid i) (some (a : Rat)) =
        (.success d, st2, [.condDec i a, .saveDoc i]) ∧
      st2.findById i = some d ∧ d.inStock = decide (0 < d.quantity) := by
  have hq1 : (1 : Rat) ≤ (a : Rat) := by exact_mod_cast ha
  have hnotlt : ¬ ((a : Rat) < 1 ∨ ((a : Rat)).den ≠ 1) := by
    push_neg
    exact ⟨hq1, rfl⟩
  set d0 : Sweet := { s with quantity := s.quantity - a } with hd0
  have hdec : findOneAndUpdateDec st i a = (some d0, st.setById i d0) := by
    unfold findOneAndUpdateDec
    simp only [hfind]
    rw [if_pos hle]
  have hms1 : threadMicroStep st i (.start (some (a : Rat))) = (st, .atCondDec a) := by
    simp only [threadMicroStep, Option.getD_some]
    rw [if_neg hnotlt, Rat.num_intCast]
  have hms2 : threadMicroStep st i (.atCondDec a) = (st.setById i d0, .atSave a d0) := by
    simp only [threadMicroStep]
    rw [hdec]
  have s1 : Step ⟨st, [⟨i, .start (some (a : Rat))⟩]⟩ ⟨st, [⟨i, .atCondDec a⟩]⟩ :=
    Step.sched _ _ [] [] i _ _ rfl hms1
  have s2 : Step ⟨st, [⟨i, .atCondDec a⟩]⟩
      ⟨st.setById i d0, [⟨i, .atSave a d0⟩]⟩ :=
    Step.sched _ _ [] [] i _ _ rfl hms2
  refine ⟨Relation.ReflTransGen.refl.tail s1 |>.tail s2,
    Store.findById_setById_self st i d0 s hfind, rfl, rfl, ?_⟩
  obtain ⟨d, st2, heq, hd, hsto, _⟩ :=
    purchaseSweet_success_eq st i s (a : Rat) hfind hq1 rfl hle
  exact ⟨d, st2, heq, hsto, by simp [hd]⟩

/-- Sample document for the C2 witness. -/
def c2wSweet : Sweet :=
  { name := "Gummy Bears", category := "Gummy", price := 3, quantity := 1,
    description := none, inStock := true, createdAt := 0 }

/-- Witness for C2's amended theorem at a concrete store and amount 1. -/
theorem purchase_two_step_decrement_then_save_witness :
    Store.findById [(0, c2wSweet)] 0 = some c2wSweet ∧
    (1 : Int) ≤ 1 ∧ (1 : Int) ≤ c2wSweet.quantity ∧
    (Reachable ⟨[(0, c2wSweet)], [⟨0, .start (some ((1 : Int) : Rat))⟩]⟩
       ⟨Store.setById [(0, c2wSweet)] 0 { c2wSweet with quantity := c2wSweet.quantity - 1 },
        [⟨0, .atSave 1 { c2wSweet with quantity := c2wSweet.quantity - 1 }⟩]⟩ ∧
     (Store.setById [(0, c2wSweet)] 0
         { c2wSweet with quantity := c2wSweet.quantity - 1 }).findById 0 =
       some { c2wSweet with quantity := c2wSweet.quantity - 1 } ∧
     ({ c2wSweet with quantity := c2wSweet.quantity - 1 } : Sweet).inStock =
       c2wSweet.inStock ∧
     (PurchasePC.atSave 1
         { c2wSweet with quantity := c2wSweet.quantity - 1 }).isFinished = false ∧
     ∃ d st2,
       purchaseSweet [(0, c2wSweet)] (.valid 0) (some ((1 : Int) : Rat)) =
         (.success d, st2, [.condDec 0 1, .saveDoc 0]) ∧
       st2.findById 0 = some d ∧ d.inStock = decide (0 < d.quantity)) :=
  ⟨rfl, by decide, by decide,
   purchase_two_step_decrement_then_save [(0, c2wSweet)] 0 c2wSweet 1 rfl
     (by decide) (by decide)⟩

/-- C3: a purchase of a positive integer amount `a` from an item with
quantity `Q ≥ a` succeeds: the conditional decrement matches, the response
carries the item with quantity `Q − a` and `inStock = (Q − a > 0)`, and the
store holds that same document afterwards. -/
theorem purchase_success_decrements_and_recomputes (st : Store) (i : SweetId)
    (s : Sweet) (a : Int) (hfind : st.findById i = some s) (ha : 1 ≤ a)
    (hq : a ≤ s.quantity) :
    ∃ d st2,
      purchaseSweet st (.valid i) (some (a : Rat)) =
        (.success d, st2, [.condDec i a, .saveDoc i]) ∧
      d.quantity = s.quantity - a ∧
      d.inStock = decide (0 < s.quantity - a) ∧
      st2.findById i = some d := by
  have hq1 : (1 : Rat) ≤ (a : Rat) := by exact_mod_cast ha
  have hden : ((a : Rat)).den = 1 := rfl
  have hnum : ((a : Rat)).num = a := rfl
  obtain ⟨d, st2, heq, hd, hstore, _⟩ :=
    purchaseSweet_success_eq st i s (a : Rat) hfind hq1 hden (by rw [hnum]; exact hq)
  refine ⟨d, st2, ?_, ?_, ?_, hstore⟩
  · rw [heq, hnum]
  · simp [hd, hnum]
  · simp [hd, hnum]

/-- Sample document for the C3 witness: scenario B of the specification,
quantity 1 purchased down to 0. -/
def c3Sweet : Sweet :=
  { name := "Scenario B", category := "Candy", price := 2, quantity := 1,
    description := none, inStock := true, createdAt := 0 }

/-- Witness for C3 at quantity 1 and amount 1: success with quantity 0 and
`inStock = false`. -/
theorem purchase_success_decrements_and_recomputes_witness :
    Store.findById [(0, c3Sweet)] 0 = some c3Sweet ∧
    (1 : Int) ≤ 1 ∧ (1 : Int) ≤ c3Sweet.quantity ∧
    ∃ d st2,
      purchaseSweet [(0, c3Sweet)] (.valid 0) (some ((1 : Int) : Rat)) =
        (.success d, st2, [.condDec 0 1, .saveDoc 0]) ∧
      d.quantity = c3Sweet.quantity - 1 ∧
      d.inStock = decide (0 < c3Sweet.quantity - 1) ∧
      st2.findById 0 = some d :=
  ⟨rfl, by decide, by decide,
   purchase_success_decrements_and_recomputes [(0, c3Sweet)] 0 c3Sweet 1 rfl
     (by decide) (by decide)⟩

/-- C4: under any interleaving of any number of concurrent purchase
requests against one item (each request's store accesses are the atomic
steps of the interleaving), every reachable configuration stores the item
with quantity `Q` minus the amounts already taken by successful conditional
decrements, and that quantity is never negative; when all requests have
completed, the final quantity is exactly `Q` minus the sum of the amounts
of the successful purchases — no oversell and no lost decrement. -/
theorem concurrent_purchases_no_oversell_no_lost_update (i : SweetId) (st0 : Store)
    (s0 : Sweet) (bodies : List (Option Rat)) (c : Config)
    (hfind0 : st0.findById i = some s0) (hq0 : 0 ≤ s0.quantity)
    (hreach : Reachable ⟨st0, bodies.map fun b => ⟨i, PurchasePC.start b⟩⟩ c) :
    ∃ s, c.store.findById i = some s ∧
      s.quantity = s0.quantity - spentSum c.threads ∧ 0 ≤ s.quantity ∧
      ((∀ t ∈ c.threads, t.pc.isFinished = true) →
        s.quantity = s0.quantity - (successAmts c.threads).sum) := by
  have h := reachable_inv i s0.quantity _ c hreach
    (by
      intro t ht
      simp only [List.mem_map] at ht
      obtain ⟨b, _, hb⟩ := ht
      rw [← hb])
    (⟨s0, hfind0, by rw [spentSum_start]; ring, hq0⟩)
  obtain ⟨-, s, hfind, hq, hpos⟩ := h
  exact ⟨s, hfind, hq, hpos,
    fun hfin => by rw [hq, spentSum_eq_successAmts _ hfin]⟩

/-- Sample document for the C4 witness: quantity 3, bought concurrently. -/
def c4Sweet : Sweet :=
  { name := "Chocolate Bar", category := "Chocolate", price := 5, quantity := 3,
    description := none, inStock := true, createdAt := 0 }

/-- Intermediate document of the C4 witness run after the first decrement. -/
def c4SweetA : Sweet := { c4Sweet with quantity := 2 }

/-- Intermediate document of the C4 witness run after the second decrement. -/
def c4SweetB : Sweet := { c4Sweet with quantity := 0 }

/-- Final stored document of the C4 witness run. -/
def c4SweetC : Sweet := { c4Sweet with quantity := 0, inStock := false }

/-- Final configuration of the C4 witness run: both purchases succeeded. -/
def c4Final : Config :=
  ⟨[(0, c4SweetC)],
   [⟨0, .finished 1 (.success c4SweetA)⟩, ⟨0, .finished 2 (.success c4SweetC)⟩]⟩

/-- Concrete complete run for the C4 witness: two concurrent purchases of
amounts 1 and 2 against quantity 3, scheduled one after the other. -/
theorem c4_reach :
    Reachable ⟨[(0, c4Sweet)], [⟨0, .start (some 1)⟩, ⟨0, .start (some 2)⟩]⟩ c4Final := by
  have s1 : Step ⟨[(0, c4Sweet)], [⟨0, .start (some 1)⟩, ⟨0, .start (some 2)⟩]⟩
      ⟨[(0, c4Sweet)], [⟨0, .atCondDec 1⟩, ⟨0, .start (some 2)⟩]⟩ :=
    Step.sched _ _ [] [⟨0, .start (some 2)⟩] 0 _ _ rfl (by decide)
  have s2 : Step ⟨[(0, c4Sweet)], [⟨0, .atCondDec 1⟩, ⟨0, .start (some 2)⟩]⟩
      ⟨[(0, c4SweetA)], [⟨0, .atSave 1 c4SweetA⟩, ⟨0, .start (some 2)⟩]⟩ :=
    Step.sched _ _ [] [⟨0, .start (some 2)⟩] 0 _ _ rfl (by decide)
  have s3 : Step ⟨[(0, c4SweetA)], [⟨0, .atSave 1 c4SweetA⟩, ⟨0, .start (some 2)⟩]⟩
      ⟨[(0, c4SweetA)],
       [⟨0, .finished 1 (.success c4SweetA)⟩, ⟨0, .start (some 2)⟩]⟩ :=
    Step.sched _ _ [] [⟨0, .start (some 2)⟩] 0 _ _ rfl (by decide)
  have s4 : Step ⟨[(0, c4SweetA)],
      [⟨0, .finished 1 (.success c4SweetA)⟩, ⟨0, .start (some 2)⟩]⟩
      ⟨[(0, c4SweetA)], [⟨0, .finished 1 (.success c4SweetA)⟩, ⟨0, .atCondDec 2⟩]⟩ :=
    Step.sched _ _ [⟨0, .finished 1 (.success c4SweetA)⟩] [] 0 _ _ rfl (by decide)
  have s5 : Step ⟨[(0, c4SweetA)],
      [⟨0, .finished 1 (.success c4SweetA)⟩, ⟨0, .atCondDec 2⟩]⟩
      ⟨[(0, c4SweetB)],
       [⟨0, .finished 1 (.success c4SweetA)⟩, ⟨0, .atSave 2 c4SweetB⟩]⟩ :=
    Step.sched _ _ [⟨0, .finished 1 (.success c4SweetA)⟩] [] 0 _ _ rfl (by decide)
  have s6 : Step ⟨[(0, c4SweetB)],
      [⟨0, .finished 1 (.success c4SweetA)⟩, ⟨0, .atSave 2 c4SweetB⟩]⟩
      ⟨[(0, c4SweetC)],
       [⟨0, .finished 1 (.success c4SweetA)⟩, ⟨0, .finished 2 (.success c4SweetC)⟩]⟩ :=
    Step.sched _ _ [⟨0, .finished 1 (.success c4SweetA)⟩] [] 0 _ _ rfl (by decide)
  exact Relation.ReflTransGen.refl.tail s1 |>.tail s2 |>.tail s3 |>.tail s4
    |>.tail s5 |>.tail s6

/-- Witness for C4 at a concrete run: two successful concurrent purchases
of amounts 1 and 2 against quantity 3 end with stored quantity 0. -/
theorem concurrent_purchases_no_oversell_no_lost_update_witness :
    Store.findById [(0, c4Sweet)] 0 = some c4Sweet ∧
    (0 : Int) ≤ c4Sweet.quantity ∧
    Reachable ⟨[(0, c4Sweet)],
      [some 1, some 2].map fun b => ⟨0, PurchasePC.start b⟩⟩ c4Final ∧
    ∃ s, c4Final.store.findById 0 = some s ∧
      s.quantity = c4Sweet.quantity - spentSum c4Final.threads ∧ 0 ≤ s.quantity ∧
      ((∀ t ∈ c4Final.threads, t.pc.isFinished = true) →
        s.quantity = c4Sweet.quantity - (successAmts c4Final.threads).sum) :=
  ⟨rfl, by decide, c4_reach,
   concurrent_purchases_no_oversell_no_lost_update 0 [(0, c4Sweet)] c4Sweet
     [some 1, some 2] c4Final rfl (by decide) c4_reach⟩

/-- C5: an amount that is not a positive integer is rejected by the
validation that runs before any store interaction: the result is the
invalid-amount failure, the access list is empty (the store receives zero
calls), and the store is unchanged. -/
theorem invalid_amount_fails_before_store_access (st : Store) (rid : ObjectIdStr)
    (q : Rat) (h : ¬ (1 ≤ q ∧ q.den = 1)) :
    purchaseSweet st rid (some q) = (.invalidAmount, st, []) := by
  have hcond : q < 1 ∨ q.den ≠ 1 := by
    rcases not_and_or.mp h with h1 | h2
    · exact Or.inl (not_le.mp h1)
    · exact Or.inr h2
  unfold purchaseSweet
  simp only [Option.getD_some]
  rw [if_pos hcond]

/-- Sample document for the C5 witness. -/
def c5Sweet : Sweet :=
  { name := "Validation Test", category := "Candy", price := 3, quantity := 10,
    description := none, inStock := true, createdAt := 0 }

/-- Witness for C5 at amount 0: invalid, empty access list, store intact. -/
theorem invalid_amount_fails_before_store_access_witness :
    ¬ (1 ≤ (0 : Rat) ∧ (0 : Rat).den = 1) ∧
    purchaseSweet [(0, c5Sweet)] (.valid 0) (some 0) =
      (.invalidAmount, [(0, c5Sweet)], []) :=
  ⟨by decide,
   invalid_amount_fails_before_store_access [(0, c5Sweet)] (.valid 0) 0 (by decide)⟩

/-- C6: when the conditional decrement matches no record, the purchase
performs exactly one follow-up `findById` — the access list is precisely
the decrement followed by one read, with no retry — and answers not-found
when no document exists, or insufficient-stock carrying the quantity seen
by that disambiguating read when the document exists with too little
stock.  The store is unchanged in both cases. -/
theorem failed_decrement_single_disambiguating_read (st : Store) (i : SweetId)
    (q : Rat) (hq1 : 1 ≤ q) (hden : q.den = 1) :
    (st.findById i = none →
      purchaseSweet st (.valid i) (some q) =
        (.notFound, st, [.condDec i q.num, .readById i])) ∧
    (∀ s, st.findById i = some s → s.quantity < q.num →
      purchaseSweet st (.valid i) (some q) =
        (.insufficientStock s.quantity, st, [.condDec i q.num, .readById i])) := by
  have hnotlt : ¬ ((q : Rat) < 1 ∨ q.den ≠ 1) := by
    push_neg
    exact ⟨hq1, hden⟩
  constructor
  · intro hnone
    have hdec : findOneAndUpdateDec st i q.num = (none, st) := by
      unfold findOneAndUpdateDec
      simp only [hnone]
    unfold purchaseSweet
    simp only [Option.getD_some]
    rw [if_neg hnotlt]
    simp only [hdec, hnone]
  · intro s hsome hlt
    have hdec : findOneAndUpdateDec st i q.num = (none, st) := by
      unfold findOneAndUpdateDec
      simp only [hsome]
      rw [if_neg (not_le.mpr hlt)]
    unfold purchaseSweet
    simp only [Option.getD_some]
    rw [if_neg hnotlt]
    simp only [hdec, hsome]

/-- Sample document for the C6 witness: scenario C of the specification,
quantity 5 with a requested amount of 10. -/
def c6Sweet : Sweet :=
  { name := "Limited Stock", category := "Candy", price := 4, quantity := 5,
    description := none, inStock := true, createdAt := 0 }

/-- Witness for C6 at quantity 5 and amount 10: insufficient-stock failure
reporting 5 available, with exactly one disambiguating read. -/
theorem failed_decrement_single_disambiguating_read_witness :
    (1 : Rat) ≤ 10 ∧ ((10 : Rat)).den = 1 ∧
    Store.findById [(0, c6Sweet)] 0 = some c6Sweet ∧
    c6Sweet.quantity < ((10 : Rat)).num ∧
    purchaseSweet [(0, c6Sweet)] (.valid 0) (some 10) =
      (.insufficientStock c6Sweet.quantity, [(0, c6Sweet)],
       [.condDec 0 ((10 : Rat)).num, .readById 0]) :=
  ⟨by decide, by decide, rfl, by decide,
   (failed_decrement_single_disambiguating_read [(0, c6Sweet)] 0 10
     (by decide) (by decide)).2 c6Sweet rfl (by decide)⟩

/-- C7: every purchase that does not end in success leaves the store —
hence every item's `quantity` and `inStock` — exactly as it was. -/
theorem failed_purchase_leaves_store_unchanged (st : Store) (rid : ObjectIdStr)
    (body : Option Rat) (r : PurchaseResult) (st2 : Store)
    (tr : List StoreAccess)
    (h : purchaseSweet st rid body = (r, st2, tr))
    (hr : ∀ d, r ≠ .success d) :
    st2 = st := by
  by_cases hval : (body.getD 1) < 1 ∨ (body.getD 1).den ≠ 1
  · simp only [purchaseSweet] at h
    rw [if_pos hval] at h
    simp only [Prod.mk.injEq] at h
    exact h.2.1.symm
  · cases rid with
    | malformed =>
      simp only [purchaseSweet] at h
      rw [if_neg hval] at h
      simp only [Prod.mk.injEq] at h
      exact h.2.1.symm
    | valid i =>
      simp only [purchaseSweet] at h
      rw [if_neg hval] at h
      obtain ⟨od, st1, hfu⟩ : ∃ od st1,
          findOneAndUpdateDec st i (body.getD 1).num = (od, st1) := ⟨_, _, rfl⟩
      rw [hfu] at h
      cases od with
      | some d1 =>
        obtain ⟨dd, ss, hsave⟩ : ∃ dd ss, saveInStock st1 i d1 = (dd, ss) :=
          ⟨_, _, rfl⟩
        simp only [hsave] at h
        simp only [Prod.mk.injEq] at h
        exact absurd h.1.symm (hr dd)
      | none =>
        cases hfi : st.findById i with
        | none =>
          simp only [hfi, Prod.mk.injEq] at h
          exact h.2.1.symm
        | some s =>
          simp only [hfi, Prod.mk.injEq] at h
          exact h.2.1.symm

/-- Sample document for the C7 witness. -/
def c7Sweet : Sweet :=
  { name := "Out of Reach", category := "Candy", price := 2, quantity := 1,
    description := none, inStock := true, createdAt := 0 }

/-- Witness for C7 at a concrete insufficient-stock failure: the store is
returned unchanged. -/
theorem failed_purchase_leaves_store_unchanged_witness :
    purchaseSweet [(0, c7Sweet)] (.valid 0) (some 5) =
      (.insufficientStock 1, [(0, c7Sweet)], [.condDec 0 5, .readById 0]) ∧
    (∀ d, PurchaseResult.insufficientStock 1 ≠ .success d) ∧
    ([(0, c7Sweet)] : Store) = [(0, c7Sweet)] :=
  ⟨by decide, fun d h => PurchaseResult.noConfusion h,
   failed_purchase_leaves_store_unchanged [(0, c7Sweet)] (.valid 0) (some 5)
     (.insufficientStock 1) [(0, c7Sweet)] [.condDec 0 5, .readById 0]
     (by decide) (fun d h => PurchaseResult.noConfusion h)⟩

/-- C8: a purchase request whose body leaves the amount unspecified is the
same function application as a purchase of amount 1 — same result, same
final store, same store accesses. -/
theorem purchase_defaults_amount_to_one (st : Store) (rid : ObjectIdStr) :
    purchaseSweet st rid none = purchaseSweet st rid (some 1) := rfl

/-- C9: an id string that fails to cast makes both `purchaseSweet` and
`getSweetById` answer the same not-found outcome they give for a
well-formed id that matches no document, with no store access and no state
change on the purchase path. -/
theorem malformed_id_treated_as_not_found (st : Store) (q : Rat) (i : SweetId)
    (hq : 1 ≤ q ∧ q.den = 1) (hi : st.findById i = none) :
    purchaseSweet st .malformed (some q) = (.notFound, st, []) ∧
    (purchaseSweet st (.valid i) (some q)).1 = .notFound ∧
    getSweetById st .malformed = .notFound ∧
    getSweetById st (.valid i) = .notFound := by
  have hnotlt : ¬ ((q : Rat) < 1 ∨ q.den ≠ 1) := by
    push_neg
    exact ⟨hq.1, hq.2⟩
  have hdec : findOneAndUpdateDec st i q.num = (none, st) := by
    unfold findOneAndUpdateDec
    simp only [hi]
  refine ⟨?_, ?_, ?_, ?_⟩
  · unfold purchaseSweet
    simp only [Option.getD_some]
    rw [if_neg hnotlt]
  · unfold purchaseSweet
    simp only [Option.getD_some]
    rw [if_neg hnotlt]
    simp only [hdec, hi]
  · rfl
  · unfold getSweetById
    simp only [hi]

/-- Sample document for the C9 witness (stored under id 0; id 1 is free). -/
def c9Sweet : Sweet :=
  { name := "Only Item", category := "Candy", price := 2, quantity := 4,
    description := none, inStock := true, createdAt := 0 }

/-- Witness for C9 at a store holding only id 0, probing id 1 and a
malformed id string. -/
theorem malformed_id_treated_as_not_found_witness :
    ((1 : Rat) ≤ 1 ∧ ((1 : Rat)).den = 1) ∧
    Store.findById [(0, c9Sweet)] 1 = none ∧
    (purchaseSweet [(0, c9Sweet)] .malformed (some 1) =
       (.notFound, [(0, c9Sweet)], []) ∧
     (purchaseSweet [(0, c9Sweet)] (.valid 1) (some 1)).1 = .notFound ∧
     getSweetById [(0, c9Sweet)] .malformed = .notFound ∧
     getSweetById [(0, c9Sweet)] (.valid 1) = .notFound) :=
  ⟨by decide, by decide,
   malformed_id_treated_as_not_found [(0, c9Sweet)] 1 1 (by decide) (by decide)⟩

/-- C10: an update supplying only a subset of the body fields changes
exactly the supplied fields: every unsupplied field — and `createdAt` —
keeps its previous value, the document stays stored under its id, and
every other id's binding is untouched. -/
theorem update_unsupplied_fields_unchanged (st : Store) (i : SweetId) (s : Sweet)
    (b : UpdateBody) (d : Sweet) (st2 : Store)
    (hfind : st.findById i = some s)
    (h : updateSweet st (.valid i) b = (.ok d, st2)) :
    (b.name = none → d.name = s.name) ∧
    (b.category = none → d.category = s.category) ∧
    (b.price = none → d.price = s.price) ∧
    (b.quantity = none → d.quantity = s.quantity) ∧
    (b.description = none → d.description = s.description) ∧
    d.createdAt = s.createdAt ∧
    st2.findById i = some d ∧
    (∀ j, j ≠ i → st2.findById j = st.findById j) := by
  obtain ⟨hd, hst2⟩ := updateSweet_ok_eq st i s b d st2 hfind h
  subst hd hst2
  refine ⟨?_, ?_, ?_, ?_, ?_, ?_, ?_, ?_⟩
  · intro hn; simp [applyUpdate, hn]
  · intro hn; simp [applyUpdate, hn]
  · intro hn; simp [applyUpdate, hn]
  · intro hn; simp [applyUpdate, hn]
  · intro hn; simp [applyUpdate, hn]
  · rfl
  · exact Store.findById_setById_self st i _ s hfind
  · intro j hj
    exact Store.findById_setById_ne st i j _ hj

/-- Sample document for the C10 witness. -/
def c10Sweet : Sweet :=
  { name := "Frame Test", category := "Lollipop", price := 2, quantity := 3,
    description := some "keeps its fields", inStock := true, createdAt := 42 }

/-- Update body of the C10 witness: only `quantity` is supplied. -/
def c10Body : UpdateBody :=
  { name := none, category := none, price := none, quantity := some 7,
    description := none }

/-- The document after the C10 witness update. -/
def c10Updated : Sweet := { c10Sweet with quantity := 7 }

/-- Witness for C10 at an update that supplies only `quantity`. -/
theorem update_unsupplied_fields_unchanged_witness :
    Store.findById [(0, c10Sweet)] 0 = some c10Sweet ∧
    updateSweet [(0, c10Sweet)] (.valid 0) c10Body =
      (.ok c10Updated, [(0, c10Updated)]) ∧
    ((c10Body.name = none → c10Updated.name = c10Sweet.name) ∧
     (c10Body.category = none → c10Updated.category = c10Sweet.category) ∧
     (c10Body.price = none → c10Updated.price = c10Sweet.price) ∧
     (c10Body.quantity = none → c10Updated.quantity = c10Sweet.quantity) ∧
     (c10Body.description = none → c10Updated.description = c10Sweet.description) ∧
     c10Updated.createdAt = c10Sweet.createdAt ∧
     Store.findById [(0, c10Updated)] 0 = some c10Updated ∧
     (∀ j, j ≠ 0 → Store.findById [(0, c10Updated)] j =
        Store.findById [(0, c10Sweet)] j)) :=
  ⟨rfl, by decide,
   update_unsupplied_fields_unchanged [(0, c10Sweet)] 0 c10Sweet c10Body
     c10Updated [(0, c10Updated)] rfl (by decide)⟩

end SweetShop
